import Mathlib

/-!
# Verification of the competitive-programming test runner

A shallow embedding of `scripts/test_runner.py`: the test-case parser
(`parse_test_cases`), the LeetCode signature extractor
(`parse_leetcode_method_signature`), the compiler adapter (`compile_cpp`),
the execution engine (`run_test_case`) and the control flow of `main`.

Python string primitives (`str.strip`, `str.split`, `str.replace`,
`str.startswith`, `str.find`) are modelled by executable functions on
`List Char`; the two regular expressions used by the script are modelled by
deterministic matchers implementing Python `re.search` semantics (leftmost
match, greedy/lazy quantifier preference) for those concrete patterns.
External effects (the g++ subprocess, the solution subprocess, the
filesystem) are modelled by explicit event values describing how the call
ended, so the pure result-classification logic of the script is captured
exactly.
-/

namespace TestRunner

/-- The six ASCII whitespace characters recognised by Python's `str.strip`,
`str.split()` and `\s` (the fixtures and sources are ASCII). -/
def isPySpace (c : Char) : Bool :=
  c = ' ' || c = '\t' || c = '\n' || c = '\r' || c = '\x0b' || c = '\x0c'

/-- Python `str.strip()` on a character list: drop leading and trailing
whitespace. -/
def pyStripC (l : List Char) : List Char :=
  ((l.dropWhile isPySpace).reverse.dropWhile isPySpace).reverse

/-- Python `str.strip()`. -/
def pyStrip (s : String) : String :=
  ⟨pyStripC s.data⟩

/-- Worker for `splitOnC`; the fuel argument (initially the length of the
text) makes the recursion structural, so concrete inputs evaluate in the
kernel.  For a non-empty separator the fuel never runs out. -/
def splitOnCAux (sep : List Char) : Nat → List Char → List Char → List (List Char)
  | 0, l, acc => [acc.reverse ++ l]
  | fuel + 1, l, acc =>
    match l with
    | [] => [acc.reverse]
    | c :: rest =>
      if sep.isPrefixOf (c :: rest) then
        acc.reverse :: splitOnCAux sep fuel ((c :: rest).drop sep.length) []
      else
        splitOnCAux sep fuel rest (c :: acc)

/-- Python `str.split(sep)` for a non-empty separator: split on
non-overlapping occurrences, left to right, keeping empty parts. -/
def splitOnC (sep : List Char) (l : List Char) : List (List Char) :=
  splitOnCAux sep l.length l []

/-- Python `str.replace(old, "")` for a non-empty `old`: remove every
non-overlapping occurrence, left to right. -/
def removeAllC (old : List Char) (l : List Char) : List Char :=
  (splitOnC old l).flatten

/-- Python whitespace split `str.split()`: split on runs of whitespace,
discarding empty parts. -/
def splitWsC : List Char → List Char → List (List Char)
  | [], acc => if acc.isEmpty then [] else [acc.reverse]
  | c :: rest, acc =>
    if isPySpace c then
      if acc.isEmpty then splitWsC rest [] else acc.reverse :: splitWsC rest []
    else
      splitWsC rest (c :: acc)

/-- Python `"\n".join(lines)`. -/
def joinNl : List String → String
  | [] => ""
  | [s] => s
  | s :: rest => s ++ "\n" ++ joinNl rest

/-- The index of the first element satisfying `p`, starting the count at
`j`; models the Python `for j, line in enumerate(lines): ... break` scan. -/
def findFirstIdx (p : α → Bool) : List α → Nat → Option Nat
  | [], _ => none
  | a :: rest, j => if p a then some j else findFirstIdx p rest (j + 1)

/-- Python `str.find(c)` (first index of a character, if present). -/
def findIdxC (c : Char) : List Char → Option Nat
  | [] => none
  | a :: rest => if a = c then some 0 else (findIdxC c rest).map (· + 1)

/-- Match a literal at the head of the text, returning the remainder. -/
def dropLitQ (lit l : List Char) : Option (List Char) :=
  if lit.isPrefixOf l then some (l.drop lit.length) else none

/-- The text strictly before the first occurrence of the (non-empty)
literal `lit`, or `none` when `lit` does not occur: this is the shortest
(lazy) match of `(.*?)` followed by `lit`. -/
def takeUntilLit (lit : List Char) : List Char → Option (List Char)
  | [] => if lit.isPrefixOf ([] : List Char) then some [] else none
  | c :: rest =>
    if lit.isPrefixOf (c :: rest) then some []
    else (takeUntilLit lit rest).map (c :: ·)

/-- Python `enumerate(xs, start)`. -/
def enumFromC : Nat → List α → List (Nat × α)
  | _, [] => []
  | n, a :: as => (n, a) :: enumFromC (n + 1) as

/-! ## Data model (the dataclasses of the script) -/

/-- The `TestCase` dataclass. -/
structure TestCase where
  input_data : String
  expected_output : String
  test_number : Nat
deriving DecidableEq, Repr

/-- The `TestResult` dataclass.  `execution_time` (a Python float holding
seconds) is modelled as a rational. -/
structure TestResult where
  test_case : TestCase
  actual_output : String
  passed : Bool
  execution_time : ℚ
  memory_used : String
deriving DecidableEq, Repr

/-- The `CompilationResult` dataclass. -/
structure CompilationResult where
  success : Bool
  error_message : String
  executable_path : String
deriving DecidableEq, Repr

/-- The `Platform` constants. -/
inductive PlatformT where
  | codeforces
  | leetcode
  | atcoder
  | hackerrank
deriving DecidableEq, Repr

/-! ## Case parser (`parse_test_cases`) -/

/-- The regex `` ```tests\n(.*?)\n``` `` (DOTALL) of `parse_test_cases`,
as Python `re.search` evaluates it: the match starts at the leftmost
position where the opening literal is followed (lazily) by the closing
literal, and the group is the text between them. -/
def findTestsBlock : List Char → Option (List Char)
  | [] => none
  | c :: rest =>
    if ("```tests\n".data).isPrefixOf (c :: rest) then
      match takeUntilLit ("\n```".data) ((c :: rest).drop ("```tests\n".data).length) with
      | some body => some body
      | none => findTestsBlock rest
    else
      findTestsBlock rest

/-- The line list the keyed (LeetCode) branch works on:
`[line.strip() for line in block.strip().split('\n') if line.strip()]`. -/
def keyedLines (block : String) : List String :=
  (splitOnC ['\n'] (pyStripC block.data)).filterMap fun cs =>
    let s := pyStripC cs
    if s.isEmpty then none else some ⟨s⟩

/-- The `input_data` value of a keyed segment: `lines[1]` with every
occurrence of `Sample Input:` removed (`str.replace(_, "")`) and stripped
when `lines[1]` starts with that prefix, empty otherwise. -/
def keyedInputVal (lines : List String) : String :=
  if ("Sample Input:".data).isPrefixOf (lines.getD 1 "").data then
    pyStrip ⟨removeAllC ("Sample Input:".data) (lines.getD 1 "").data⟩
  else ""

/-- The `expected_output` value of a keyed segment: `lines[2]` with every
occurrence of `Sample Output:` removed and stripped when `lines[2]`
starts with that prefix, empty otherwise. -/
def keyedOutputVal (lines : List String) : String :=
  if ("Sample Output:".data).isPrefixOf (lines.getD 2 "").data then
    pyStrip ⟨removeAllC ("Sample Output:".data) (lines.getD 2 "").data⟩
  else ""

/-- One segment of the keyed (LeetCode) branch of `parse_test_cases`:
`lines[0]` is the function line (unused), `lines[1]` must carry the
`Sample Input:` prefix and `lines[2]` the `Sample Output:` prefix; the
values are the lines with every occurrence of the prefix removed and
stripped, and both must be non-empty. -/
def keyedSegment (block : String) (i : Nat) : Option TestCase :=
  if 3 ≤ (keyedLines block).length then
    if keyedInputVal (keyedLines block) ≠ "" ∧ keyedOutputVal (keyedLines block) ≠ "" then
      some ⟨keyedInputVal (keyedLines block), keyedOutputVal (keyedLines block), i + 1⟩
    else none
  else none

/-- The line list the freeform branch works on: `block.strip().split('\n')`. -/
def linesOf (block : String) : List String :=
  (splitOnC ['\n'] (pyStripC block.data)).map fun cs => ⟨cs⟩

/-- The index of the first blank line (`line.strip() == ''`). -/
def firstBlank (lines : List String) : Option Nat :=
  findFirstIdx (fun l => pyStrip l == "") lines 0

/-- One segment of the freeform branch of `parse_test_cases`: the lines
before the first blank line join into the input, the lines after it join
(and are stripped) into the expected output; the segment contributes a
case only when it has at least two lines, a blank line at positive index,
a non-blank input and a non-empty expected output. -/
def freeformSegment (block : String) (i : Nat) : Option TestCase :=
  if 2 ≤ (linesOf block).length then
    match firstBlank (linesOf block) with
    | some idx =>
      if 0 < idx then
        if pyStrip (joinNl ((linesOf block).take idx)) ≠ "" ∧
            pyStrip (joinNl ((linesOf block).drop (idx + 1))) ≠ "" then
          some ⟨joinNl ((linesOf block).take idx),
                pyStrip (joinNl ((linesOf block).drop (idx + 1))), i + 1⟩
        else none
      else none
    | none => none
  else none

/-- The per-segment parser chosen by the platform (keyed for LeetCode,
freeform otherwise). -/
def segmentCase (platform : PlatformT) (block : String) (i : Nat) : Option TestCase :=
  if platform = PlatformT.leetcode then keyedSegment block i else freeformSegment block i

/-- The segments of a tests-block body: `tests_content.split('---')`. -/
def blocksOf (body : List Char) : List String :=
  (splitOnC ("---".data) body).map fun cs => ⟨cs⟩

/-- The function `parse_test_cases`, with the file content passed directly (the Python
function reads it from `test_filepath`).  No tests block yields no cases. -/
def parse_test_cases (content : String) (platform : PlatformT) : List TestCase :=
  match findTestsBlock content.data with
  | none => []
  | some body =>
    (enumFromC 0 (blocksOf body)).filterMap fun p => segmentCase platform p.2 p.1

/-! ## Signature extractor (`parse_leetcode_method_signature`)

The Python function evaluates
`re.search(r'class\s+Solution\s*\{[^}]*public:\s*([^{}]*?)\s*\{', content, re.DOTALL)`.
The matcher below implements exactly that pattern with Python semantics:
leftmost starting position, greedy `[^}]*` (longest first, backtracking),
greedy `\s*`, lazy group `([^{}]*?)` (shortest first).  For this pattern
the `\s*` steps are deterministic because the atom after each is not a
whitespace character. -/

/-- Pattern `\s+`: at least one whitespace character, then all following ones. -/
def wsPlus : List Char → Option (List Char)
  | [] => none
  | c :: rest => if isPySpace c then some (rest.dropWhile isPySpace) else none

/-- The lazy group `([^{}]*?)` followed by `\s*\{`: the group is the
shortest brace-free prefix after which (skipping whitespace) a `{`
follows.  The trailing `\s*` never backtracks usefully because `{` is not
whitespace. -/
def lazyGroupC : List Char → List Char → Option (List Char)
  | [], acc =>
    if (([] : List Char).dropWhile isPySpace).head? = some '{' then some acc.reverse else none
  | c :: rest, acc =>
    if (((c :: rest).dropWhile isPySpace).head? = some '{') then some acc.reverse
    else if c = '{' || c = '}' then none
    else lazyGroupC rest (c :: acc)

/-- Try `public:\s*([^{}]*?)\s*\{` with the `[^}]*` part fixed to the
first `k` characters of `l`. -/
def tryPublicAt (l : List Char) (k : Nat) : Option (List Char) :=
  match dropLitQ ("public:".data) (l.drop k) with
  | none => none
  | some r => lazyGroupC (r.dropWhile isPySpace) []

/-- Backtracking for the greedy `[^}]*`: try the longest prefix first,
then shorter ones. -/
def greedyPublic (l : List Char) : Nat → Option (List Char)
  | 0 => tryPublicAt l 0
  | k + 1 =>
    match tryPublicAt l (k + 1) with
    | some g => some g
    | none => greedyPublic l k

/-- Match the whole pattern at the current position and return the group. -/
def matchSigAt (l : List Char) : Option (List Char) :=
  match dropLitQ ("class".data) l with
  | none => none
  | some r1 =>
    match wsPlus r1 with
    | none => none
    | some r2 =>
      match dropLitQ ("Solution".data) r2 with
      | none => none
      | some r3 =>
        match r3.dropWhile isPySpace with
        | '{' :: r4 => greedyPublic r4 (r4.takeWhile (· ≠ '}')).length
        | _ => none

/-- Python `re.search` of the signature pattern: the leftmost position where the
whole pattern matches, returning the captured group. -/
def findSolutionSig : List Char → Option (List Char)
  | [] => none
  | c :: rest =>
    match matchSigAt (c :: rest) with
    | some g => some g
    | none => findSolutionSig rest

/-- The function `parse_leetcode_method_signature`, with the file content passed
directly.  On a regex match the matched declaration is stripped and split
on whitespace: the first token is taken as the return type, the part of
the second token before `(` as the method name, and the text between the
first `(` and the first `)` (stripped) as the parameter list; every other
case degrades to the fallback `("int", "solution", "")`. -/
def parse_leetcode_method_signature (content : String) : String × String × String :=
  match findSolutionSig content.data with
  | none => ("int", "solution", "")
  | some g =>
    let sig := pyStripC g
    match splitWsC sig [] with
    | p0 :: p1 :: _ =>
      let method_name := p1.takeWhile (· ≠ '(')
      match findIdxC '(' sig, findIdxC ')' sig with
      | some ps, some pe =>
        (⟨p0⟩, ⟨method_name⟩, ⟨pyStripC ((sig.drop (ps + 1)).take (pe - (ps + 1)))⟩)
      | _, _ => ("int", "solution", "")
    | _ => ("int", "solution", "")

/-! ## Compiler adapter (`compile_cpp`) -/

/-- Python `os.path.join` for a relative component (the only use here). -/
def pathJoin (a b : String) : String := a ++ "/" ++ b

/-- Python `os.path.dirname` for the `/`-separated relative paths the runner
builds (all segments non-empty). -/
def dirname (p : String) : String :=
  joinSlash ((splitOnC ['/'] p.data).map fun cs => (⟨cs⟩ : String)).dropLast
where
  joinSlash : List String → String
    | [] => ""
    | [s] => s
    | s :: rest => s ++ "/" ++ joinSlash rest

/-- Python `os.path.basename` for the same paths. -/
def basename (p : String) : String :=
  ((splitOnC ['/'] p.data).map fun cs => (⟨cs⟩ : String)).getLastD ""

/-- Python `os.path.splitext(name)[0]` for an ordinary file name (extension after
the last dot). -/
def stemOf (name : String) : String :=
  let r := name.data.reverse
  if r.contains '.' then ⟨(((r.dropWhile (· ≠ '.')).drop 1)).reverse⟩ else name

/-- The executable path `compile_cpp` derives on a non-Windows host:
`<dir of source>/out/<source name without extension>`. -/
def executablePathFor (cppPath : String) : String :=
  pathJoin (pathJoin (dirname cppPath) "out") (stemOf (basename cppPath))

/-- How the `os.makedirs(out_dir, exist_ok=True)` call at the start of
`compile_cpp` ended.  This call runs BEFORE the `try` block, so an
exception it raises (e.g. `out` existing as a regular file, or an
unwritable directory) is not caught by the adapter. -/
inductive MkdirEvent where
  | ok
  | raised (message : String)
deriving DecidableEq, Repr

/-- How the `subprocess.run(compile_cmd, ..., timeout=30)` call inside
`compile_cpp` ended: the toolchain exited (with a return code and a
captured stderr stream), the 30-second timeout expired
(`subprocess.TimeoutExpired`), or some other exception was raised (e.g.
`FileNotFoundError` when g++ is missing), carrying its `str(e)` text. -/
inductive CompileEvent where
  | exited (returncode : Int) (stderrOutput : String)
  | timedOut
  | faulted (message : String)
deriving DecidableEq, Repr

/-- The `timeout=30` bound passed to the compile subprocess. -/
def compileTimeoutSeconds : Nat := 30

/-- The function `compile_cpp`.  The output-directory creation runs first,
outside the `try` block: an exception there escapes the adapter uncaught
(modelled as `Except.error`).  Once it succeeds, the toolchain event is
classified totally into a `CompilationResult`: every exception raised by
the invocation itself is caught and converted into a failed result, never
re-raised. -/
def compile_cpp (cppPath : String) (mkdir : MkdirEvent) (event : CompileEvent) :
    Except String CompilationResult :=
  match mkdir with
  | MkdirEvent.raised message => Except.error message
  | MkdirEvent.ok =>
    Except.ok <|
      match event with
      | CompileEvent.exited rc stderrOutput =>
        if rc = 0 then ⟨true, "", executablePathFor cppPath⟩
        else ⟨false, stderrOutput, ""⟩
      | CompileEvent.timedOut => ⟨false, "Compilation timeout", ""⟩
      | CompileEvent.faulted message => ⟨false, message, ""⟩

/-! ## Execution engine (`run_test_case`) -/

/-- How the `subprocess.run([...time, executable], ..., timeout=5)` call
inside `run_test_case` ended: the process terminated (with an exit code,
whatever the scratch output file then holds, and the captured stderr of
`/usr/bin/time`), the 5-second timeout expired, or another exception was
raised. -/
inductive ExecEvent where
  | completed (exitCode : Int) (outputFileContent : String) (stderrContent : String)
  | timedOut
  | faulted (message : String)
deriving DecidableEq, Repr

/-- The `timeout=5` bound passed to the per-case subprocess. -/
def runTimeoutSeconds : Nat := 5

/-- The function `run_test_case` (the non-Windows branch), with the subprocess call
modelled by an `ExecEvent`.  `pyFloat` abstracts Python's `float(...)`
parser (`none` models a raised `ValueError`) and `wallClock` the
`time.time()` difference, both used only for the timing/memory fields of
a normal completion.  On normal completion the scratch output file is
read back, stripped, and compared against the stripped expected output;
the exit code is never inspected.  On timeout the result is the literal
`TIMEOUT` with the timeout bound as elapsed time; on any other fault the
result carries `ERROR: ` plus the exception text with zero elapsed time. -/
def run_test_case (pyFloat : String → Option ℚ) (wallClock : ℚ)
    (event : ExecEvent) (test_case : TestCase) (_platform : Option PlatformT) : TestResult :=
  match event with
  | ExecEvent.timedOut => ⟨test_case, "TIMEOUT", false, 5, "N/A"⟩
  | ExecEvent.faulted message => ⟨test_case, "ERROR: " ++ message, false, 0, "N/A"⟩
  | ExecEvent.completed _exitCode outputFileContent stderrContent =>
    let timeMem : ℚ × String :=
      match splitWsC (pyStripC stderrContent.data) [] with
      | p0 :: p1 :: _ =>
        match pyFloat ⟨p0⟩ with
        | some t => (t, (⟨p1⟩ : String) ++ " KB")
        | none => (wallClock, "N/A")
      | _ => (wallClock, "N/A")
    let actual_output := pyStrip outputFileContent
    ⟨test_case, actual_output, actual_output == pyStrip test_case.expected_output,
      timeMem.1, timeMem.2⟩

/-- The trailing-whitespace-only trim.  This is not an operation of the
script (which uses full `str.strip()`); it states the specification's
"trim trailing whitespace" reading, for comparison. -/
def pyRstrip (s : String) : String :=
  ⟨(s.data.reverse.dropWhile isPySpace).reverse⟩

/-! ## Main control flow (`main`) -/

/-- The temporary driver path `create_leetcode_test_runner` uses:
`<workspace root>/io/temp_leetcode_runner.cpp` where the workspace root is
two levels above the source file. -/
def tempDriverPathFor (cppPath : String) : String :=
  pathJoin (pathJoin (dirname (dirname cppPath)) "io") "temp_leetcode_runner.cpp"

/-- The environment one invocation of `main` runs against: whether the
source and test files are found, the detected platform, the fixture
content, and how each external subprocess call ends (`execEvents i` is the
run of the `i`-th case, 0-based). -/
structure RunEnv where
  cppFound : Bool
  platform : PlatformT
  testFileFound : Bool
  fixtureContent : String
  cppPath : String
  mkdirEvent : MkdirEvent
  compileEvent : CompileEvent
  execEvents : Nat → ExecEvent
  pyFloat : String → Option ℚ
  wallTimes : Nat → ℚ

/-- The observable outcome of one invocation of `main`: the exit code (if
`sys.exit` ran), the compilation result (if `compile_cpp` returned), the
diagnostic printed on a failed compilation, the per-case results, whether
the temporary LeetCode driver file was created / removed, and the text of
an exception that escaped uncaught (killing the interpreter), if any. -/
structure RunOutcome where
  exitCode : Option Nat
  compilation : Option CompilationResult
  shownDiagnostic : Option String
  results : List TestResult
  tempDriverCreated : Bool
  tempDriverRemoved : Bool
  uncaughtException : Option String
deriving DecidableEq, Repr

/-- Whether this run synthesizes a temporary LeetCode driver
(`platform == Platform.LEETCODE` in `main`). -/
def isLeetcodeRun (env : RunEnv) : Bool :=
  env.platform = PlatformT.leetcode

/-- The file `main` hands to `compile_cpp`: the synthesized driver for
LeetCode, the original source otherwise. -/
def compileSource (env : RunEnv) : String :=
  if isLeetcodeRun env then tempDriverPathFor env.cppPath else env.cppPath

/-- The outcome of the `compile_cpp` call `main` makes: a
`CompilationResult`, or an exception that escaped the adapter. -/
def compState (env : RunEnv) : Except String CompilationResult :=
  compile_cpp (compileSource env) env.mkdirEvent env.compileEvent

/-- The sequential per-case loop of `main`: run every parsed case in
order through `run_test_case`. -/
def caseResults (env : RunEnv) : List TestResult :=
  (enumFromC 0 (parse_test_cases env.fixtureContent env.platform)).map fun p =>
    run_test_case env.pyFloat (env.wallTimes p.1) (env.execEvents p.1) p.2
      (some env.platform)

/-- The control flow of `main`: find the source file, find the test file,
parse the cases (exiting with code 1 when any of these fails), create the
temporary driver for LeetCode, compile — an exception escaping
`compile_cpp` kills the run uncaught (no `sys.exit`, no cleanup) — abort
on a failed compilation (printing the diagnostic and exiting with code 1,
without removing the temporary driver), otherwise run every case
sequentially and finally remove the temporary driver if one was
created. -/
def mainRun (env : RunEnv) : RunOutcome :=
  if env.cppFound = false then ⟨some 1, none, none, [], false, false, none⟩
  else if env.testFileFound = false then ⟨some 1, none, none, [], false, false, none⟩
  else if (parse_test_cases env.fixtureContent env.platform).isEmpty then
    ⟨some 1, none, none, [], false, false, none⟩
  else
    match compState env with
    | Except.error msg => ⟨none, none, none, [], isLeetcodeRun env, false, some msg⟩
    | Except.ok comp =>
      if comp.success then
        ⟨none, some comp, none, caseResults env, isLeetcodeRun env, isLeetcodeRun env, none⟩
      else
        ⟨some 1, some comp, some comp.error_message, [], isLeetcodeRun env, false, none⟩

/-! ## Helper lemmas -/

/-- A keyed segment's case carries the 1-based position of its segment. -/
theorem keyedSegment_number {block : String} {i : Nat} {tc : TestCase}
    (h : keyedSegment block i = some tc) : tc.test_number = i + 1 := by
  unfold keyedSegment at h
  split_ifs at h
  · cases h
    rfl

/-- A freeform segment's case carries the 1-based position of its segment. -/
theorem freeformSegment_number {block : String} {i : Nat} {tc : TestCase}
    (h : freeformSegment block i = some tc) : tc.test_number = i + 1 := by
  unfold freeformSegment at h
  split at h
  case isTrue =>
    split at h
    case h_1 idx heq =>
      split_ifs at h
      · cases h
        rfl
    case h_2 => cases h
  case isFalse => cases h

/-- A segment's case (either mode) carries the 1-based position of its
segment. -/
theorem segmentCase_number {platform : PlatformT} {block : String} {i : Nat} {tc : TestCase}
    (h : segmentCase platform block i = some tc) : tc.test_number = i + 1 := by
  unfold segmentCase at h
  split_ifs at h
  · exact keyedSegment_number h
  · exact freeformSegment_number h

/-- Membership in the enumerated filter-map of segments comes from a
segment at a definite index. -/
theorem mem_filterMap_enumFromC {platform : PlatformT} {tc : TestCase} :
    ∀ (bs : List String) (n : Nat),
      tc ∈ (enumFromC n bs).filterMap (fun p => segmentCase platform p.2 p.1) →
      ∃ k, k < bs.length ∧ segmentCase platform (bs.getD k "") (n + k) = some tc
  | [], _, h => by cases h
  | b :: bs, n, h => by
    rw [enumFromC, List.filterMap_cons] at h
    cases hb : segmentCase platform b n with
    | none =>
      rw [hb] at h
      obtain ⟨k, hk, hseg⟩ := mem_filterMap_enumFromC bs (n + 1) h
      exact ⟨k + 1, by simpa using hk, by simpa [Nat.add_assoc, Nat.add_comm 1 k] using hseg⟩
    | some u =>
      rw [hb] at h
      rcases List.mem_cons.mp h with h1 | h2
      · exact ⟨0, by simp, by simpa [h1] using hb⟩
      · obtain ⟨k, hk, hseg⟩ := mem_filterMap_enumFromC bs (n + 1) h2
        exact ⟨k + 1, by simpa using hk, by simpa [Nat.add_assoc, Nat.add_comm 1 k] using hseg⟩

/-- When every segment yields a case, the filter-map keeps them all in
order and their numbers are consecutive from the start index plus one. -/
theorem filterMap_enumFromC_all_some (platform : PlatformT) :
    ∀ (bs : List String) (n : Nat),
      (∀ k, k < bs.length → (segmentCase platform (bs.getD k "") (n + k)).isSome = true) →
      ((enumFromC n bs).filterMap (fun p => segmentCase platform p.2 p.1)).map
          (fun tc => tc.test_number) = List.range' (n + 1) bs.length
  | [], _, _ => rfl
  | b :: bs, n, h => by
    have h0 : (segmentCase platform b n).isSome = true := by
      simpa using h 0 (by simp)
    obtain ⟨u, hu⟩ := Option.isSome_iff_exists.mp h0
    rw [enumFromC, List.filterMap_cons, hu]
    have ih := filterMap_enumFromC_all_some platform bs (n + 1) (fun k hk => by
      simpa [Nat.add_assoc, Nat.add_comm 1 k] using h (k + 1) (by simpa using hk))
    simp only [List.map_cons, ih, List.length_cons, List.range'_succ]
    exact congrArg (· :: _) (segmentCase_number hu)

/-- A scan that never fires yields no index. -/
theorem findFirstIdx_eq_none {p : α → Bool} :
    ∀ (l : List α) (j : Nat), (∀ x ∈ l, p x = false) → findFirstIdx p l j = none
  | [], _, _ => rfl
  | a :: rest, j, h => by
    rw [findFirstIdx, h a (by simp), if_neg (by simp)]
    exact findFirstIdx_eq_none rest (j + 1) (fun x hx => h x (by simp [hx]))

/-- A character occurring in the text is found by `findIdxC`. -/
theorem findIdxC_of_mem {c : Char} : ∀ {l : List Char}, c ∈ l → ∃ k, findIdxC c l = some k
  | [], h => by cases h
  | a :: rest, h => by
    rw [findIdxC]
    by_cases ha : a = c
    · exact ⟨0, by rw [if_pos ha]⟩
    · have : c ∈ rest := by
        rcases List.mem_cons.mp h with h1 | h2
        · exact absurd h1.symm ha
        · exact h2
      obtain ⟨k, hk⟩ := findIdxC_of_mem this
      exact ⟨k + 1, by rw [if_neg ha, hk]; rfl⟩

/-! ## Claim theorems -/

/-- C1 (corrected).  On normal completion the pass flag is true iff the
read-back output and the expected output agree after *full* stripping
(leading and trailing whitespace, Python `str.strip()`) — not merely
trailing trimming; leading whitespace in the actual output therefore does
not make the case fail.  The second conjunct records the actual-output
field. -/
theorem claim_C1 : ∀ (pyFloat : String → Option ℚ) (wallClock : ℚ) (exitCode : Int)
    (out stderrContent : String) (tc : TestCase) (platform : Option PlatformT),
    ((run_test_case pyFloat wallClock (ExecEvent.completed exitCode out stderrContent) tc
        platform).passed = true ↔ pyStrip out = pyStrip tc.expected_output) ∧
    (run_test_case pyFloat wallClock (ExecEvent.completed exitCode out stderrContent) tc
        platform).actual_output = pyStrip out := by
  intro pyFloat wallClock exitCode out stderrContent tc platform
  refine ⟨?_, rfl⟩
  show (pyStrip out == pyStrip tc.expected_output) = true ↔ _
  simp

/-- C1 counterexample.  An output file reading ` 7\n` against expected
`7`: after trailing-only trimming the strings differ (so the claim
predicts a failed case), yet the code passes the case, because it strips
leading whitespace as well. -/
theorem claim_C1_counterexample :
    (run_test_case (fun _ => none) 0 (ExecEvent.completed 139 " 7\n" "") ⟨"3 4", "7", 1⟩
        (some PlatformT.codeforces)).passed = true ∧
    pyRstrip " 7\n" ≠ pyRstrip "7" := by decide

/-- C8 (corrected).  Once the preliminary output-directory creation has
succeeded, the adapter classifies every toolchain event totally: exit
code 0 yields success with the derived executable path recorded; a
nonzero exit code yields failure with the captured stderr stream;
exceeding the 30-second compile timeout yields failure with the
synthetic `Compilation timeout` diagnostic; any other fault raised by
the toolchain invocation yields failure with that fault's message.  A
fault raised by the output-directory creation itself, however, escapes
the adapter uncaught. -/
theorem claim_C8 :
    compileTimeoutSeconds = 30 ∧
    (∀ (p e : String), compile_cpp p MkdirEvent.ok (CompileEvent.exited 0 e) =
      Except.ok ⟨true, "", executablePathFor p⟩) ∧
    (∀ (p : String) (rc : Int) (e : String), rc ≠ 0 →
      compile_cpp p MkdirEvent.ok (CompileEvent.exited rc e) = Except.ok ⟨false, e, ""⟩) ∧
    (∀ p : String, compile_cpp p MkdirEvent.ok CompileEvent.timedOut =
      Except.ok ⟨false, "Compilation timeout", ""⟩) ∧
    (∀ p m : String, compile_cpp p MkdirEvent.ok (CompileEvent.faulted m) =
      Except.ok ⟨false, m, ""⟩) ∧
    (∀ (p m : String) (event : CompileEvent),
      compile_cpp p (MkdirEvent.raised m) event = Except.error m) := by
  refine ⟨rfl, fun p e => rfl, fun p rc e h => ?_, fun p => rfl, fun p m => rfl,
    fun p m event => rfl⟩
  simp [compile_cpp, h]

/-- C8 witness: a nonzero exit code at a concrete path. -/
theorem claim_C8_witness :
    compile_cpp "ws/01_codeforces/a.cpp" MkdirEvent.ok (CompileEvent.exited 1 "boom") =
      Except.ok ⟨false, "boom", ""⟩ :=
  claim_C8.2.2.1 "ws/01_codeforces/a.cpp" 1 "boom" (by decide)

/-- C8 counterexample.  A fault in the output-directory creation (which
the Python code performs before its `try` block) propagates out of the
adapter as an exception instead of being converted into the failed
`CompilationResult` the claim demands — even though the toolchain itself
would have succeeded. -/
theorem claim_C8_counterexample :
    compile_cpp "ws/01_codeforces/a.cpp" (MkdirEvent.raised "Not a directory: out")
        (CompileEvent.exited 0 "") = Except.error "Not a directory: out" ∧
    compile_cpp "ws/01_codeforces/a.cpp" (MkdirEvent.raised "Not a directory: out")
        (CompileEvent.exited 0 "") ≠ Except.ok ⟨false, "Not a directory: out", ""⟩ :=
  ⟨rfl, fun h => Except.noConfusion h⟩

/-- C9 (corrected).  A timed-out case yields the literal `TIMEOUT`, a
false pass flag, elapsed time equal to the 5-second timeout bound and
unavailable memory; any other execution fault yields a false pass flag,
the fault's description *prefixed by `ERROR: `* as the actual output,
zero elapsed time and unavailable memory. -/
theorem claim_C9 :
    runTimeoutSeconds = 5 ∧
    (∀ (pyFloat : String → Option ℚ) (wallClock : ℚ) (tc : TestCase)
        (platform : Option PlatformT),
      run_test_case pyFloat wallClock ExecEvent.timedOut tc platform =
        ⟨tc, "TIMEOUT", false, (runTimeoutSeconds : ℚ), "N/A"⟩) ∧
    (∀ (pyFloat : String → Option ℚ) (wallClock : ℚ) (message : String) (tc : TestCase)
        (platform : Option PlatformT),
      run_test_case pyFloat wallClock (ExecEvent.faulted message) tc platform =
        ⟨tc, "ERROR: " ++ message, false, 0, "N/A"⟩) := by
  refine ⟨rfl, fun _ _ _ _ => ?_, fun _ _ _ _ _ => rfl⟩
  simp [run_test_case, runTimeoutSeconds]

/-- C9 counterexample.  A fault described `boom` is reported as
`ERROR: boom`, which is not the bare description `boom` the claim
states. -/
theorem claim_C9_counterexample :
    (run_test_case (fun _ => none) 0 (ExecEvent.faulted "boom") ⟨"3 4", "7", 1⟩
        none).actual_output = "ERROR: boom" ∧
    ("ERROR: boom" : String) ≠ "boom" := by decide

/-- C10 (confirmed).  For a process that terminates within the timeout
the outcome never inspects the exit status or the stderr stream for the
verdict: the pass flag and actual output are identical across any two
exit codes and stderr contents, the actual output is exactly the stripped
scratch-file content, and the case passes iff that stripped content
equals the stripped expected output — so an abnormal exit that wrote the
expected text is reported as passed with no fault recorded. -/
theorem claim_C10 : ∀ (pyFloat : String → Option ℚ) (wallClock : ℚ) (c₁ c₂ : Int)
    (out s₁ s₂ : String) (tc : TestCase) (platform : Option PlatformT),
    ((run_test_case pyFloat wallClock (ExecEvent.completed c₁ out s₁) tc platform).passed =
      (run_test_case pyFloat wallClock (ExecEvent.completed c₂ out s₂) tc platform).passed) ∧
    (run_test_case pyFloat wallClock (ExecEvent.completed c₁ out s₁) tc
        platform).actual_output = pyStrip out ∧
    ((run_test_case pyFloat wallClock (ExecEvent.completed c₁ out s₁) tc platform).passed =
        true ↔ pyStrip out = pyStrip tc.expected_output) := by
  intro pyFloat wallClock c₁ c₂ out s₁ s₂ tc platform
  refine ⟨rfl, rfl, ?_⟩
  show (pyStrip out == pyStrip tc.expected_output) = true ↔ _
  simp

/-- C2 (confirmed).  Whenever a run reaches compilation and the
compilation fails, the run exits with code 1, surfaces the diagnostic
text, and executes no test case: the result list is empty. -/
theorem claim_C2 : ∀ (env : RunEnv) (comp : CompilationResult),
    (mainRun env).compilation = some comp → comp.success = false →
    (mainRun env).results = [] ∧ (mainRun env).exitCode = some 1 ∧
      (mainRun env).shownDiagnostic = some comp.error_message := by
  intro env comp h1 h2
  simp only [mainRun] at h1 ⊢
  cases hcs : compState env with
  | error msg =>
    dsimp only at h1 ⊢
    split_ifs at h1 ⊢
    all_goals simp_all
  | ok c =>
    dsimp only at h1 ⊢
    split_ifs at h1 ⊢
    all_goals simp_all

/-- A Codeforces-style environment whose compilation fails. -/
def envC2 : RunEnv :=
  ⟨true, PlatformT.codeforces, true, "```tests\n1 2\n\n3\n```", "ws/01_codeforces/a.cpp",
    MkdirEvent.ok, CompileEvent.exited 1 "boom", fun _ => ExecEvent.timedOut, fun _ => none,
    fun _ => 0⟩

/-- C2 witness: the concrete failing-compilation run executes no case,
exits with code 1 and surfaces the diagnostic. -/
theorem claim_C2_witness :
    (mainRun envC2).results = [] ∧ (mainRun envC2).exitCode = some 1 ∧
      (mainRun envC2).shownDiagnostic = some "boom" :=
  claim_C2 envC2 ⟨false, "boom", ""⟩ (by decide) (by decide)

/-- A LeetCode environment whose (driver) compilation fails. -/
def envC3 : RunEnv :=
  ⟨true, PlatformT.leetcode, true,
    "```tests\nFunction: twoSum\nSample Input: [2,7,11,15] 9\nSample Output: [0,1]\n```",
    "ws/04_leetcode/two_sum.cpp", MkdirEvent.ok,
    CompileEvent.exited 1 "error: expected expression",
    fun _ => ExecEvent.timedOut, fun _ => none, fun _ => 0⟩

/-- C3 (code bug).  On the failed-compilation exit path of a LeetCode run
the synthesized temporary driver file is created but NOT removed: `main`
exits with code 1 before the cleanup step, contradicting the stated
invariant that the driver is removed on every exit path. -/
theorem claim_C3 :
    (mainRun envC3).tempDriverCreated = true ∧
    (mainRun envC3).tempDriverRemoved = false ∧
    (mainRun envC3).exitCode = some 1 ∧
    (mainRun envC3).compilation = some ⟨false, "error: expected expression", ""⟩ := by
  decide

/-- C4 (corrected).  When the signature regex matches and the matched
declaration splits into at least two whitespace tokens and contains both
parentheses, the extractor returns the FIRST token alone as the return
type and the part of the SECOND token before `(` as the callable name —
not the last pre-parenthesis token as the name with all prior tokens
joined as the return type (the two readings agree only for single-token
return types). -/
theorem claim_C4 : ∀ (content : String) (g p0 p1 : List Char) (rest : List (List Char)),
    findSolutionSig content.data = some g →
    splitWsC (pyStripC g) [] = p0 :: p1 :: rest →
    '(' ∈ pyStripC g → ')' ∈ pyStripC g →
    (parse_leetcode_method_signature content).1 = ⟨p0⟩ ∧
    (parse_leetcode_method_signature content).2.1 = ⟨p1.takeWhile (· ≠ '(')⟩ := by
  intro content g p0 p1 rest hfind hsplit hpin hpout
  obtain ⟨ps, hps⟩ := findIdxC_of_mem hpin
  obtain ⟨pe, hpe⟩ := findIdxC_of_mem hpout
  unfold parse_leetcode_method_signature
  rw [hfind]
  simp only [hsplit, hps, hpe]
  exact ⟨trivial, trivial⟩

/-- A LeetCode source whose single public method has a one-token return
type. -/
def leetFile : String :=
  "class Solution \x7b\npublic:\n    int sum(vector<int>& nums) \x7b\n        return 0;\n    \x7d\n\x7d;\n"

/-- C4 witness: on a single-token return type the extractor returns that
token and the method name. -/
theorem claim_C4_witness :
    (parse_leetcode_method_signature leetFile).1 = "int" ∧
    (parse_leetcode_method_signature leetFile).2.1 = "sum" :=
  claim_C4 leetFile ("int sum(vector<int>& nums)".data) ("int".data) ("sum(vector<int>&".data)
    ["nums)".data] (by decide) (by decide) (by decide) (by decide)

/-- A LeetCode source whose single public method has the three-token
return type `unsigned long long`. -/
def leetFileMulti : String :=
  "class Solution \x7b\npublic:\n    unsigned long long f(unsigned long long x) \x7b\n        return x;\n    \x7d\n\x7d;\n"

/-- C4 counterexample.  For the declaration
`unsigned long long f(unsigned long long x)` the claim demands return
type `unsigned long long` and name `f`; the code returns return type
`unsigned` and name `long`. -/
theorem claim_C4_counterexample :
    parse_leetcode_method_signature leetFileMulti = ("unsigned", "long", "unsigned long long x") ∧
    ("unsigned" : String) ≠ "unsigned long long" ∧ ("long" : String) ≠ "f" := by decide

/-- C5 (corrected).  A keyed segment contributes a case iff its non-blank
stripped lines number at least three, the line at position 1 starts with
`Sample Input:` and the line at position 2 starts with `Sample Output:`
(the fields are positional, not found by scanning), and the two values —
the respective lines with EVERY occurrence of the prefix text removed and
the remainder stripped — are non-empty; the case then carries those
values and the 1-based segment position. -/
theorem claim_C5 : ∀ (block : String) (i : Nat) (tc : TestCase),
    keyedSegment block i = some tc ↔
      (3 ≤ (keyedLines block).length ∧
       ("Sample Input:".data).isPrefixOf ((keyedLines block).getD 1 "").data = true ∧
       ("Sample Output:".data).isPrefixOf ((keyedLines block).getD 2 "").data = true ∧
       tc.input_data =
         pyStrip ⟨removeAllC ("Sample Input:".data) ((keyedLines block).getD 1 "").data⟩ ∧
       tc.expected_output =
         pyStrip ⟨removeAllC ("Sample Output:".data) ((keyedLines block).getD 2 "").data⟩ ∧
       tc.input_data ≠ "" ∧ tc.expected_output ≠ "" ∧ tc.test_number = i + 1) := by
  intro block i tc
  constructor
  · intro h
    unfold keyedSegment at h
    split_ifs at h with h3 hne
    rw [Option.some_inj] at h
    obtain ⟨hni, hno⟩ := hne
    have hpi : ("Sample Input:".data).isPrefixOf ((keyedLines block).getD 1 "").data = true := by
      by_contra hc
      rw [Bool.not_eq_true] at hc
      rw [keyedInputVal, hc] at hni
      simp at hni
    have hpo : ("Sample Output:".data).isPrefixOf ((keyedLines block).getD 2 "").data = true := by
      by_contra hc
      rw [Bool.not_eq_true] at hc
      rw [keyedOutputVal, hc] at hno
      simp at hno
    have hvi : keyedInputVal (keyedLines block) =
        pyStrip ⟨removeAllC ("Sample Input:".data) ((keyedLines block).getD 1 "").data⟩ := by
      rw [keyedInputVal, hpi]
      simp
    have hvo : keyedOutputVal (keyedLines block) =
        pyStrip ⟨removeAllC ("Sample Output:".data) ((keyedLines block).getD 2 "").data⟩ := by
      rw [keyedOutputVal, hpo]
      simp
    cases h
    exact ⟨h3, hpi, hpo, hvi, hvo, hni, hno, rfl⟩
  · intro ⟨h3, hpi, hpo, hvi, hvo, hni, hno, hnum⟩
    have hvi' : keyedInputVal (keyedLines block) = tc.input_data := by
      rw [keyedInputVal, hpi, hvi]
      simp
    have hvo' : keyedOutputVal (keyedLines block) = tc.expected_output := by
      rw [keyedOutputVal, hpo, hvo]
      simp
    unfold keyedSegment
    rw [if_pos h3, if_pos (by rw [hvi', hvo']; exact ⟨hni, hno⟩)]
    rw [hvi', hvo', ← hnum]

/-- C5 counterexample.  First segment: both recognized prefixes occur
among the non-blank lines (at positions 0 and 1, with the function line
last), yet no case is contributed — the scan the claim describes does not
happen.  Second segment: the prefix text occurring again inside the value
is removed rather than preserved, yielding input `ab`. -/
theorem claim_C5_counterexample :
    ((∃ l ∈ keyedLines "Sample Input: 1\nSample Output: 2\nFunction: f",
        ("Sample Input:".data).isPrefixOf l.data = true) ∧
     (∃ l ∈ keyedLines "Sample Input: 1\nSample Output: 2\nFunction: f",
        ("Sample Output:".data).isPrefixOf l.data = true) ∧
     keyedSegment "Sample Input: 1\nSample Output: 2\nFunction: f" 0 = none) ∧
    keyedSegment "Function: f\nSample Input: aSample Input:b\nSample Output: 2" 0 =
      some ⟨"ab", "2", 1⟩ := by decide

/-- The fixture of Scenario A: a freeform tests block with two segments. -/
def fixtureC6 : String := "```tests\n3 4\n\n7\n---\n5 5\n\n10\n```"

/-- C6 (confirmed).  The Scenario-A fixture parses into exactly the two
cases `("3 4", "7")` and `("5 5", "10")` in order; in general a freeform
segment with no blank line contributes no case, and every contributed
case has as input the newline-join of the lines before the first blank
line, as expected output the stripped newline-join of the lines after it,
both non-empty after trimming, numbered by segment position. -/
theorem claim_C6 :
    parse_test_cases fixtureC6 PlatformT.codeforces =
      [⟨"3 4", "7", 1⟩, ⟨"5 5", "10", 2⟩] ∧
    (∀ (block : String) (i : Nat), (∀ l ∈ linesOf block, pyStrip l ≠ "") →
      freeformSegment block i = none) ∧
    (∀ (block : String) (i : Nat) (tc : TestCase), freeformSegment block i = some tc →
      ∃ idx, firstBlank (linesOf block) = some idx ∧ 0 < idx ∧
        tc.input_data = joinNl ((linesOf block).take idx) ∧
        tc.expected_output = pyStrip (joinNl ((linesOf block).drop (idx + 1))) ∧
        pyStrip tc.input_data ≠ "" ∧ tc.expected_output ≠ "" ∧ tc.test_number = i + 1) := by
  refine ⟨by decide, ?_, ?_⟩
  · intro block i h
    have hfb : firstBlank (linesOf block) = none := by
      unfold firstBlank
      apply findFirstIdx_eq_none
      intro x hx
      simpa using h x hx
    unfold freeformSegment
    rw [hfb]
    simp
  · intro block i tc h
    unfold freeformSegment at h
    split_ifs at h with h2
    cases hfb : firstBlank (linesOf block) with
    | none => rw [hfb] at h; simp at h
    | some idx =>
      rw [hfb] at h
      dsimp only at h
      split_ifs at h with hpos hcond
      rw [Option.some_inj] at h
      cases h
      exact ⟨idx, rfl, hpos, rfl, rfl, hcond.1, hcond.2, rfl⟩

/-- C6 witness: a segment with no blank line contributes no case. -/
theorem claim_C6_witness : freeformSegment "3 4\n7" 0 = none :=
  claim_C6.2.1 "3 4\n7" 0 (by decide)

/-- C7 (confirmed).  Every returned case comes from the segment at some
index `k` of the `---` split and carries `test_number = k + 1` (dropped
segments are not renumbered away); and when every segment of the split
yields a case, the parser returns exactly one case per segment, numbered
`1..N` in order. -/
theorem claim_C7 :
    (∀ (content : String) (platform : PlatformT) (tc : TestCase),
      tc ∈ parse_test_cases content platform →
      ∃ body, findTestsBlock content.data = some body ∧
        ∃ k, k < (blocksOf body).length ∧
          segmentCase platform ((blocksOf body).getD k "") k = some tc ∧
          tc.test_number = k + 1) ∧
    (∀ (content : String) (platform : PlatformT) (body : List Char),
      findTestsBlock content.data = some body →
      (∀ k, k < (blocksOf body).length →
        (segmentCase platform ((blocksOf body).getD k "") k).isSome = true) →
      (parse_test_cases content platform).map (fun tc => tc.test_number) =
        List.range' 1 (blocksOf body).length ∧
      (parse_test_cases content platform).length = (blocksOf body).length) := by
  constructor
  · intro content platform tc hmem
    unfold parse_test_cases at hmem
    cases hfb : findTestsBlock content.data with
    | none => rw [hfb] at hmem; cases hmem
    | some body =>
      rw [hfb] at hmem
      obtain ⟨k, hk, hseg⟩ := mem_filterMap_enumFromC (blocksOf body) 0 hmem
      rw [Nat.zero_add] at hseg
      exact ⟨body, rfl, k, hk, hseg, segmentCase_number hseg⟩
  · intro content platform body hfb hall
    have hmap := filterMap_enumFromC_all_some platform (blocksOf body) 0
      (fun k hk => by simpa using hall k hk)
    unfold parse_test_cases
    rw [hfb]
    refine ⟨?_, ?_⟩
    · show ((enumFromC 0 (blocksOf body)).filterMap
          (fun p => segmentCase platform p.2 p.1)).map (fun tc => tc.test_number) =
          List.range' 1 (blocksOf body).length
      simpa using hmap
    · show ((enumFromC 0 (blocksOf body)).filterMap
          (fun p => segmentCase platform p.2 p.1)).length = (blocksOf body).length
      have hlen := congrArg List.length hmap
      simpa using hlen

/-- A fixture whose two freeform segments are both well-formed. -/
def fixtureC7 : String := "```tests\n1\n\n2\n---\n3\n\n4\n```"

/-- C7 witness: with two well-formed segments the parser returns exactly
two cases numbered 1 and 2. -/
theorem claim_C7_witness :
    (parse_test_cases fixtureC7 PlatformT.codeforces).map (fun tc => tc.test_number) =
      List.range' 1 2 ∧
    (parse_test_cases fixtureC7 PlatformT.codeforces).length = 2 :=
  claim_C7.2 fixtureC7 PlatformT.codeforces ("1\n\n2\n---\n3\n\n4".data) (by decide) (by decide)

end TestRunner
